import Mathlib

/-!
# Debounced character search (`src/App.jsx`)

A shallow embedding of the `App` component: its three `useState` cells, the
value returned by `useDebounce(query, 2000)`, the effect keyed on that value,
the asynchronous `searchCharacter` (split at its single `await`), the
`onChange` handler and the JSX returned by the component.
-/

namespace DebounceSearch

/-! ## Values -/

/-- One element of `data.results`; the render reads `id`, `name` and `image`. -/
structure Character where
  id : Nat
  name : String
  image : String
deriving DecidableEq, Repr

/-- The values held by the `listing` cell: a string (`useState('')`,
`setListing('')`) or an array of characters (`data.results`). -/
inductive Listing where
  | str (s : String)
  | arr (cs : List Character)
deriving DecidableEq, Repr

/-- The object a successful `getCharacter` call resolves with. -/
structure Data where
  results : List Character
deriving DecidableEq, Repr

/-- Exceptions that can be raised while `searchCharacter` runs. -/
inductive JsError where
  | referenceError (name : String)
  | typeError (msg : String)
  | rejected (reason : String)
deriving DecidableEq, Repr

/-- The `.length` of a JavaScript string: its number of UTF-16 code units. -/
def jsLength (s : String) : Nat :=
  (s.toList.map fun c => if c.toNat < 65536 then 1 else 2).sum

/-- JavaScript truthiness of a string: every string but `''` is truthy. -/
def truthyStr (s : String) : Bool :=
  decide (s ≠ "")

/-- JavaScript truthiness of a `listing` value: `''` is falsy, every other
string and every array (the empty one included) is truthy. -/
def Listing.truthy : Listing → Bool
  | .str s => truthyStr s
  | .arr _ => true

/-! ## Component state -/

/-- The state read by one render of `App`: the cells `query`, `listing`,
`loading` (lines 9-11) and `searchQuery`, the value of `useDebounce` (line 13). -/
structure AppState where
  query : String
  searchQuery : String
  listing : Listing
  loading : Bool
deriving DecidableEq, Repr

/-- The state at the first render: `useState('')`, `useState('')`,
`useState(false)`, and a debounced value equal to the first `query`. -/
def initialState : AppState :=
  { query := "", searchQuery := "", listing := .str "", loading := false }

def setQuery (v : String) (s : AppState) : AppState :=
  { s with query := v }

def setListing (v : Listing) (s : AppState) : AppState :=
  { s with listing := v }

def setLoading (v : Bool) (s : AppState) : AppState :=
  { s with loading := v }

/-- How a block of statements ends: normally, or by a thrown exception; either
way with the state as written so far. -/
inductive Outcome where
  | done (s : AppState)
  | threw (e : JsError) (s : AppState)
deriving DecidableEq, Repr

def Outcome.state : Outcome → AppState
  | .done s => s
  | .threw _ s => s

def Outcome.andThen (o : Outcome) (k : AppState → Outcome) : Outcome :=
  match o with
  | .done s => k s
  | .threw e s => .threw e s

/-- The statement `try { body } catch (err) { handler }`. -/
def tryCatch (body : Outcome) (handler : JsError → AppState → Outcome) : Outcome :=
  match body with
  | .done s => .done s
  | .threw e s => handler e s

/-- The identifiers bound where line 25 is evaluated: the imports of lines 1-6,
`App`, the `useState` destructurings of lines 9-11, `searchQuery`,
`searchCharacter` and `data`. -/
def scope : List String :=
  ["useEffect", "useState", "TextField", "useDebounce", "getCharacter",
   "ChakraProvider", "Box", "Text", "Heading", "App",
   "query", "setQuery", "listing", "setListing", "loading", "setLoading",
   "searchQuery", "searchCharacter", "data"]

/-- A call `f(v)` with a listing argument, `f` given by its identifier.
Evaluating an identifier that nothing binds raises a `ReferenceError` before
the call is made; `setListing` writes the listing cell. The source makes no
such call with another bound identifier, and the state is left as it is
there. -/
def callWithListing (f : String) (v : Listing) (s : AppState) : Outcome :=
  if f ∉ scope then .threw (.referenceError f) s
  else if f = "setListing" then .done (setListing v s)
  else .done s

/-! ## The effect of lines 15-31 -/

/-- The condition of line 17, `searchQuery || query.length < 0`. -/
def gate (s : AppState) : Bool :=
  truthyStr s.searchQuery || decide ((jsLength s.query : Int) < 0)

/-- The part of `searchCharacter` that runs synchronously (lines 20-24, up to
the `await`): `setListing('')`, `setLoading(true)`, then the call
`getCharacter(searchQuery)`, whose argument is returned with the state. The
`console.log` of line 20 writes no state. -/
def searchCharacterStart (s : AppState) : AppState × String :=
  let s1 := setListing (.str "") s
  let s2 := setLoading true s1
  (s2, s2.searchQuery)

/-- The part of `searchCharacter` after the `await` (lines 24-29), run when the
promise of `getCharacter` settles: a rejection is rethrown inside the `try`;
a resolution binds `data` and runs lines 25-26; the `catch` runs line 28. -/
def searchCharacterResume (r : Except JsError Data) (s : AppState) : Outcome :=
  tryCatch
    (match r with
     | .error e => .threw e s
     | .ok data =>
       (callWithListing "setListining" (.arr data.results) s).andThen fun s1 =>
         .done (setLoading false s1))
    (fun _ s1 => .done (setLoading false s1))

/-- The synchronous run of the effect body (lines 16-17): the new state and the
term of the fetch it started, if any. -/
def effect (s : AppState) : AppState × Option String :=
  let s1 := setListing (.str "") s
  if gate s1 then
    let r := searchCharacterStart s1
    (r.1, some r.2)
  else (s1, none)

/-- The `onChange` handler of lines 39-40, applied to `event.target.value`. -/
def onChange (t : String) (s : AppState) : AppState :=
  setQuery t s

/-! ## Render (lines 32-50) -/

/-- One `<Box key=...>` of the result block: its key, the `src` and `alt` of
its `<img>`, and its text. -/
structure Entry where
  key : Nat
  imgSrc : String
  imgAlt : String
  text : String
deriving DecidableEq, Repr

/-- The state-dependent parts of the returned JSX: the `value` of the text
field, whether `Loading...` is present, and the entries of the result block
when the block is present. -/
structure View where
  inputValue : String
  loadingIndicator : Bool
  resultBlock : Option (List Entry)
deriving DecidableEq, Repr

/-- The callback of `listing.map` (lines 42-47). -/
def renderCharacter (c : Character) : Entry :=
  { key := c.id, imgSrc := c.image, imgAlt := c.name, text := c.name }

/-- The expression `listing && <Box>{listing.map(...)}</Box>` of lines 42-47: a
falsy `listing` renders nothing, an array renders the block, and a truthy
string has no `map` method. -/
def renderListing (l : Listing) : Except JsError (Option (List Entry)) :=
  if l.truthy then
    match l with
    | .arr cs => .ok (some (cs.map renderCharacter))
    | .str _ => .error (.typeError "listing.map is not a function")
  else .ok none

def render (s : AppState) : Except JsError View :=
  match renderListing s.listing with
  | .ok block =>
    .ok { inputValue := s.query, loadingIndicator := s.loading, resultBlock := block }
  | .error e => .error e

/-! ## The debounce hook and the event loop -/

/-- The delay `App` passes to `useDebounce` (line 13). -/
def debounceDelay : Nat := 2000

/-- Modelled from the spec: `hooks/useDebounce` is imported by `App.jsx` and is
not among the sources. "On every change to `value`, it cancels any pending
timer and starts a new one for `delayMs`": the pending timer, if any, is
replaced by one that is due `delay` after `now` and carries `value`. -/
def useDebounceRestart (delay now : Nat) (value : String)
    (_pending : Option (Nat × String)) : Option (Nat × String) :=
  some (now + delay, value)

/-- Modelled from the spec: `hooks/useDebounce` is not among the sources.
"When a timer fires without being cancelled, the primitive's output is set to
the `value` that was current when the timer was started": the pending timer
fires once its due time has been reached. -/
def useDebounceDue (now : Nat) (pending : Option (Nat × String)) : Option (Nat × String) :=
  match pending with
  | some (due, value) => if due ≤ now then some (due, value) else none
  | none => none

/-- A call of `getCharacter` whose promise has not settled: a serial number and
the term it was called with. -/
structure Fetch where
  id : Nat
  term : String
deriving DecidableEq, Repr

/-- History of the fetches, newest entry first. -/
inductive LogEntry where
  | started (f : Fetch)
  | settled (id : Nat)
deriving DecidableEq, Repr

/-- The component together with its environment: the clock, the pending timer
of the debounce hook, the fetches in flight, and two histories (the fetches
started and settled, and the firings of the debounce timer with their due
times), both newest first. -/
structure World where
  app : AppState
  now : Nat
  timer : Option (Nat × String)
  pending : List Fetch
  nextId : Nat
  fetchLog : List LogEntry
  debounceLog : List (Nat × String)
deriving DecidableEq, Repr

/-- The events of the single event loop: a keystroke delivering the new text of
the input, the passing of `d` time units, and the settlement of a fetch. -/
inductive Event where
  | input (t : String)
  | wait (d : Nat)
  | resolve (id : Nat) (data : Data)
  | reject (id : Nat) (err : JsError)
deriving DecidableEq, Repr

/-- Runs the effect of lines 15-31 and records the fetch it starts. -/
def runEffect (w : World) : World :=
  match effect w.app with
  | (app1, none) => { w with app := app1 }
  | (app1, some term) =>
    { w with
      app := app1
      pending := { id := w.nextId, term := term } :: w.pending
      nextId := w.nextId + 1
      fetchLog := .started { id := w.nextId, term := term } :: w.fetchLog }

/-- The debounce timer fires with `value`: the debounced term is set, and the
effect, keyed on `[searchQuery]`, runs when the term has changed. -/
def fire (due : Nat) (value : String) (w : World) : World :=
  let w1 : World :=
    { w with
      app := { w.app with searchQuery := value }
      timer := none
      debounceLog := (due, value) :: w.debounceLog }
  if value = w.app.searchQuery then w1 else runEffect w1

/-- The promise of fetch `id` settles with `r`; nothing happens when no such
fetch is in flight. -/
def settle (id : Nat) (r : Except JsError Data) (w : World) : World :=
  match w.pending.find? (fun f => f.id = id) with
  | none => w
  | some _ =>
    { w with
      app := (searchCharacterResume r w.app).state
      pending := w.pending.filter (fun f => f.id ≠ id)
      fetchLog := .settled id :: w.fetchLog }

def step (w : World) : Event → World
  | .input t =>
    { w with
      app := onChange t w.app
      timer := if t = w.app.query then w.timer
               else useDebounceRestart debounceDelay w.now t w.timer }
  | .wait d =>
    let w1 : World := { w with now := w.now + d }
    match useDebounceDue w1.now w1.timer with
    | some (due, value) => fire due value w1
    | none => w1
  | .resolve id data => settle id (.ok data) w
  | .reject id err => settle id (.error err) w

def runFrom (w : World) (evs : List Event) : World :=
  evs.foldl step w

/-- The world after mount: the first render, then the effect run once with the
initial debounced term. -/
def mount : World :=
  runEffect
    { app := initialState, now := 0, timer := none, pending := [], nextId := 0,
      fetchLog := [], debounceLog := [] }

def run (evs : List Event) : World :=
  runFrom mount evs

/-! ## Vocabulary of the properties -/

/-- The character of the worked example. -/
def rick : Character :=
  { id := 1, name := "Rick Sanchez", image := "u1" }

/-- Whether a render produced the result block. -/
def blockShown (r : Except JsError View) : Bool :=
  match r with
  | .ok v => v.resultBlock.isSome
  | .error _ => false

/-- Whether a listing value is an array with at least one character. -/
def Listing.isNonEmptyList : Listing → Bool
  | .arr (_ :: _) => true
  | _ => false

/-- The fetch started last, read off the history. -/
def lastStarted : List LogEntry → Option Fetch
  | [] => none
  | .started f :: _ => some f
  | .settled _ :: rest => lastStarted rest

/-- Whether the most recently started fetch exists and is still in flight. -/
def mostRecentPending (w : World) : Bool :=
  match lastStarted w.fetchLog with
  | some f => decide (f ∈ w.pending)
  | none => false

/-- Whether some fetch has settled after the last start of a fetch. -/
def settledSinceLastStart : List LogEntry → Bool
  | .settled _ :: _ => true
  | _ => false

/-- The events of a burst of typing: each update is preceded by the time that
passed since the previous one. -/
def burst : List (Nat × String) → List Event
  | [] => []
  | (gap, v) :: rest => .wait gap :: .input v :: burst rest

/-- The value of the last update of a burst that starts with `v0`. -/
def lastValue (v0 : String) (rest : List (Nat × String)) : String :=
  (rest.map Prod.snd).getLastD v0

/-- The time of the last update of a burst whose first update is made in `w`. -/
def lastUpdateTime (w : World) (rest : List (Nat × String)) : Nat :=
  w.now + (rest.map Prod.fst).sum

/-- The invariant behind the loading flag: `loading` is true exactly when the
newest entry of the history is the start of a fetch, and that fetch is then
in flight. -/
structure LoadingInv (w : World) : Prop where
  flag : w.app.loading = true ↔ ∃ f rest, w.fetchLog = .started f :: rest
  inFlight : ∀ f rest, w.fetchLog = .started f :: rest → f ∈ w.pending

/-! ## Lemmas on the code after the `await` -/

theorem setListining_not_in_scope : "setListining" ∉ scope := by
  decide

theorem searchCharacterResume_ok (data : Data) (s : AppState) :
    searchCharacterResume (.ok data) s = .done (setLoading false s) := by
  simp [searchCharacterResume, callWithListing, setListining_not_in_scope, Outcome.andThen,
    tryCatch]

theorem searchCharacterResume_error (e : JsError) (s : AppState) :
    searchCharacterResume (.error e) s = .done (setLoading false s) := by
  simp [searchCharacterResume, tryCatch]

theorem searchCharacterResume_state (r : Except JsError Data) (s : AppState) :
    (searchCharacterResume r s).state = setLoading false s := by
  cases r with
  | error e => rw [searchCharacterResume_error]; rfl
  | ok data => rw [searchCharacterResume_ok]; rfl

theorem jsLength_not_neg (q : String) : decide ((jsLength q : Int) < 0) = false := by
  simp

theorem gate_eq (s : AppState) : gate s = truthyStr s.searchQuery := by
  simp [gate]

theorem effect_empty (s : AppState) (h : s.searchQuery = "") :
    effect s = (setListing (.str "") s, none) := by
  simp [effect, gate_eq, truthyStr, setListing, h]

theorem effect_nonempty (s : AppState) (h : s.searchQuery ≠ "") :
    effect s = (setLoading true (setListing (.str "") s), some s.searchQuery) := by
  simp [effect, gate_eq, truthyStr, setListing, setLoading, searchCharacterStart, h]

theorem effect_listing (s : AppState) : (effect s).1.listing = .str "" := by
  by_cases h : s.searchQuery = ""
  · rw [effect_empty s h]; rfl
  · rw [effect_nonempty s h]; rfl

/-! ## Lemmas on the event loop -/

theorem runEffect_empty (w : World) (h : w.app.searchQuery = "") :
    runEffect w = { w with app := setListing (.str "") w.app } := by
  unfold runEffect
  rw [effect_empty _ h]

theorem runEffect_nonempty (w : World) (h : w.app.searchQuery ≠ "") :
    runEffect w =
      { w with
        app := setLoading true (setListing (.str "") w.app)
        pending := { id := w.nextId, term := w.app.searchQuery } :: w.pending
        nextId := w.nextId + 1
        fetchLog := .started { id := w.nextId, term := w.app.searchQuery } :: w.fetchLog } := by
  unfold runEffect
  rw [effect_nonempty _ h]

theorem runEffect_listing (w : World) : (runEffect w).app.listing = .str "" := by
  by_cases h : w.app.searchQuery = ""
  · rw [runEffect_empty w h]; rfl
  · rw [runEffect_nonempty w h]; rfl

theorem fire_listing (due : Nat) (value : String) (w : World) (h : w.app.listing = .str "") :
    (fire due value w).app.listing = .str "" := by
  unfold fire
  dsimp only
  split
  · exact h
  · exact runEffect_listing _

theorem settle_listing (id : Nat) (r : Except JsError Data) (w : World) :
    (settle id r w).app.listing = w.app.listing := by
  unfold settle
  split
  · rfl
  · simp only [searchCharacterResume_state]; rfl

theorem step_listing (w : World) (ev : Event) (h : w.app.listing = .str "") :
    (step w ev).app.listing = .str "" := by
  cases ev with
  | input t => exact h
  | wait d =>
    simp only [step]
    split
    · exact fire_listing _ _ _ h
    · exact h
  | resolve id data => simp only [step, settle_listing]; exact h
  | reject id err => simp only [step, settle_listing]; exact h

theorem runFrom_listing (evs : List Event) (w : World) (h : w.app.listing = .str "") :
    (runFrom w evs).app.listing = .str "" := by
  induction evs generalizing w with
  | nil => exact h
  | cons ev rest ih => exact ih (step w ev) (step_listing w ev h)

theorem loadingInv_runEffect {w : World} (h : LoadingInv w) : LoadingInv (runEffect w) := by
  by_cases hq : w.app.searchQuery = ""
  · rw [runEffect_empty w hq]
    exact ⟨h.flag, h.inFlight⟩
  · rw [runEffect_nonempty w hq]
    constructor
    · simp [setLoading]
    · intro f rest hlog
      simp only [List.cons.injEq, LogEntry.started.injEq] at hlog
      simp [← hlog.1]

theorem loadingInv_fire {w : World} (h : LoadingInv w) (due : Nat) (value : String) :
    LoadingInv (fire due value w) := by
  have h1 : LoadingInv
      { w with
        app := { w.app with searchQuery := value }
        timer := none
        debounceLog := (due, value) :: w.debounceLog } := ⟨h.flag, h.inFlight⟩
  unfold fire
  dsimp only
  split
  · exact h1
  · exact loadingInv_runEffect h1

theorem loadingInv_settle {w : World} (h : LoadingInv w) (id : Nat) (r : Except JsError Data) :
    LoadingInv (settle id r w) := by
  unfold settle
  split
  · exact h
  · constructor
    · simp [searchCharacterResume_state, setLoading]
    · intro f rest hlog
      simp at hlog

theorem loadingInv_step {w : World} (h : LoadingInv w) (ev : Event) : LoadingInv (step w ev) := by
  cases ev with
  | input t => exact ⟨h.flag, h.inFlight⟩
  | wait d =>
    simp only [step]
    have h1 : LoadingInv { w with now := w.now + d } := ⟨h.flag, h.inFlight⟩
    split
    · exact loadingInv_fire h1 _ _
    · exact h1
  | resolve id data => exact loadingInv_settle h id _
  | reject id err => exact loadingInv_settle h id _

theorem loadingInv_runFrom (evs : List Event) {w : World} (h : LoadingInv w) :
    LoadingInv (runFrom w evs) := by
  induction evs generalizing w with
  | nil => exact h
  | cons ev rest ih => exact ih (loadingInv_step h ev)

theorem loadingInv_mount : LoadingInv mount := by
  have hlog : mount.fetchLog = [] := by decide
  have hload : mount.app.loading = false := by decide
  constructor
  · simp [hlog, hload]
  · intro f rest h
    rw [hlog] at h
    cases h

theorem lastValue_cons (v : String) (g : Nat) (v1 : String) (rest : List (Nat × String)) :
    lastValue v ((g, v1) :: rest) = lastValue v1 rest := by
  cases rest <;> rfl

theorem runFrom_burst (rest : List (Nat × String)) (w : World) (v : String)
    (hq : w.app.query = v) (ht : w.timer = some (w.now + debounceDelay, v))
    (hgap : ∀ p ∈ rest, p.1 < debounceDelay)
    (hchg : List.Chain (fun a b => a ≠ b) v (rest.map Prod.snd)) :
    runFrom w (burst rest) =
      { w with
        app := { w.app with query := lastValue v rest }
        now := lastUpdateTime w rest
        timer := some (lastUpdateTime w rest + debounceDelay, lastValue v rest) } := by
  induction rest generalizing w v with
  | nil =>
    obtain ⟨app, now, timer, pending, nextId, fetchLog, debounceLog⟩ := w
    obtain ⟨query, searchQuery, listing, loading⟩ := app
    simp only at hq ht
    simp [runFrom, burst, lastValue, lastUpdateTime, hq, ht]
  | cons p rest ih =>
    obtain ⟨g, v1⟩ := p
    have hg : g < debounceDelay := hgap (g, v1) (List.mem_cons_self _ _)
    simp only [List.map_cons, List.chain_cons] at hchg
    have hstep : step (step w (.wait g)) (.input v1) =
        { w with
          app := { w.app with query := v1 }
          now := w.now + g
          timer := some (w.now + g + debounceDelay, v1) } := by
      have hdue : useDebounceDue (w.now + g) w.timer = none := by
        rw [ht]
        simp only [useDebounceDue]
        rw [if_neg (by omega)]
      have hne : ¬ v1 = w.app.query := by
        rw [hq]; exact fun h => hchg.1 h.symm
      simp only [step, hdue, onChange, setQuery, useDebounceRestart, if_neg hne]
    have hrun : runFrom w (burst ((g, v1) :: rest)) =
        runFrom (step (step w (.wait g)) (.input v1)) (burst rest) := rfl
    rw [hrun, hstep]
    rw [ih _ v1 rfl rfl (fun q hqm => hgap q (List.mem_cons_of_mem _ hqm)) hchg.2]
    rw [lastValue_cons]
    simp [lastUpdateTime, Nat.add_assoc]

/-! ## Claims on `searchCharacter`, the gate and the render -/

/-- C1, evaluated on the code: with the debounced term "rick", the fetch
started by the effect settles successfully with `results` holding the single
character Rick Sanchez. `searchCharacter` ends normally with `loading` false,
but `listing` is still the empty string and not the result list. -/
theorem searchCharacter_success_leaves_listing_empty :
    (effect { initialState with query := "rick", searchQuery := "rick" }).2 = some "rick" ∧
    searchCharacterResume (.ok { results := [rick] })
        (effect { initialState with query := "rick", searchQuery := "rick" }).1
      = .done { query := "rick", searchQuery := "rick", listing := .str "", loading := false } ∧
    (searchCharacterResume (.ok { results := [rick] })
        (effect { initialState with query := "rick", searchQuery := "rick" }).1).state.listing
      ≠ .arr [rick] := by
  decide

/-- C2: for every state whose debounced term is non-empty and every error, the
effect starts a fetch for that term with `loading` true; when the fetch is
rejected `searchCharacter` ends normally (the exception does not escape), with
`loading` false and `listing` the empty string. The `catch` ends normally with
`loading` false from every state in which the rejection may arrive. -/
theorem searchCharacter_rejected (s : AppState) (e : JsError) (h : s.searchQuery ≠ "") :
    (effect s).2 = some s.searchQuery ∧
    (effect s).1.loading = true ∧
    searchCharacterResume (.error e) (effect s).1
      = .done { query := s.query, searchQuery := s.searchQuery, listing := .str "",
                loading := false } ∧
    ∀ s1 : AppState, searchCharacterResume (.error e) s1 = .done { s1 with loading := false } := by
  refine ⟨?_, ?_, ?_, ?_⟩
  · rw [effect_nonempty s h]
  · rw [effect_nonempty s h]; rfl
  · rw [effect_nonempty s h, searchCharacterResume_error]; rfl
  · intro s1; rw [searchCharacterResume_error]; rfl

theorem searchCharacter_rejected_witness :
    ({ initialState with searchQuery := "rick" } : AppState).searchQuery ≠ "" ∧
    ((effect { initialState with searchQuery := "rick" }).2 = some "rick" ∧
     (effect { initialState with searchQuery := "rick" }).1.loading = true ∧
     searchCharacterResume (.error (.rejected "network")) (effect { initialState with searchQuery := "rick" }).1
       = .done { query := "", searchQuery := "rick", listing := .str "", loading := false } ∧
     ∀ s1 : AppState, searchCharacterResume (.error (.rejected "network")) s1
       = .done { s1 with loading := false }) :=
  ⟨by decide,
   searchCharacter_rejected { initialState with searchQuery := "rick" } (.rejected "network")
     (by decide)⟩

/-- C3: from every state, whatever its listing, and for every new debounced
term, the synchronous run of the effect ends with `listing` the empty string,
both when the gate starts a fetch and when it does not. -/
theorem effect_clears_listing (s : AppState) (t : String) :
    (effect { s with searchQuery := t }).1.listing = .str "" ∧
    ((effect { s with searchQuery := t }).2 = none ∨
     (effect { s with searchQuery := t }).2 = some t) := by
  refine ⟨effect_listing _, ?_⟩
  by_cases h : t = ""
  · left; rw [effect_empty _ h]
  · right; rw [effect_nonempty _ h]

/-- C4: the second disjunct of the gate is false for every raw query, the gate
holds exactly when the debounced term is not the empty string, and it has the
same value for every raw query. With the empty debounced term the effect
starts no fetch and leaves `loading` as it was; so it is on mount, and when
the debounce timer fires with the empty string. -/
theorem gate_iff_debounced_nonempty (q sq : String) (l : Listing) (b : Bool) (w : World)
    (due : Nat) :
    decide ((jsLength q : Int) < 0) = false ∧
    (gate { query := q, searchQuery := sq, listing := l, loading := b } = true ↔ sq ≠ "") ∧
    (∀ q1 : String,
      gate { query := q1, searchQuery := sq, listing := l, loading := b }
        = gate { query := q, searchQuery := sq, listing := l, loading := b }) ∧
    (effect { query := q, searchQuery := "", listing := l, loading := b }).2 = none ∧
    (effect { query := q, searchQuery := "", listing := l, loading := b }).1.loading = b ∧
    mount.pending = [] ∧ mount.fetchLog = [] ∧ mount.app.loading = false ∧
    (fire due "" w).pending = w.pending ∧ (fire due "" w).fetchLog = w.fetchLog ∧
    (fire due "" w).app.loading = w.app.loading := by
  refine ⟨jsLength_not_neg q, ?_, ?_, ?_, ?_, by decide, by decide, by decide, ?_⟩
  · simp [gate_eq, truthyStr]
  · intro q1; simp [gate_eq]
  · rw [effect_empty _ rfl]
  · rw [effect_empty _ rfl]; rfl
  · unfold fire
    split
    · exact ⟨rfl, rfl, rfl⟩
    · simp only [runEffect]
      rw [effect_empty _ rfl]
      exact ⟨rfl, rfl, rfl⟩

/-- C7: for every world and every input text `t`, the handler sets `query` to
`t` and leaves the debounced term, `loading` and `listing` as they were, and
the keystroke starts no fetch. For every event, `loading` and `listing` are
both left as they were unless the event changes the debounced term or settles
a fetch that is in flight. -/
theorem onChange_writes_query_only (w : World) (t : String) (ev : Event) :
    onChange t w.app = { w.app with query := t } ∧
    (step w (.input t)).app = { w.app with query := t } ∧
    (step w (.input t)).pending = w.pending ∧
    (step w (.input t)).nextId = w.nextId ∧
    (step w (.input t)).fetchLog = w.fetchLog ∧
    (((step w ev).app.loading = w.app.loading ∧ (step w ev).app.listing = w.app.listing) ∨
     (step w ev).app.searchQuery ≠ w.app.searchQuery ∨
     (∃ f ∈ w.pending, (∃ data, ev = .resolve f.id data) ∨ (∃ e, ev = .reject f.id e))) := by
  refine ⟨rfl, rfl, rfl, rfl, rfl, ?_⟩
  cases ev with
  | input t1 => left; exact ⟨rfl, rfl⟩
  | wait d =>
    simp only [step]
    split
    · rename_i due value hdue
      unfold fire
      dsimp only
      split
      · left; exact ⟨rfl, rfl⟩
      · rename_i hne
        right; left
        have hsq : ∀ w2 : World, (runEffect w2).app.searchQuery = w2.app.searchQuery := by
          intro w2
          unfold runEffect
          by_cases h : w2.app.searchQuery = ""
          · rw [effect_empty _ h]; rfl
          · rw [effect_nonempty _ h]; rfl
        rw [hsq]
        exact hne
    · left; exact ⟨rfl, rfl⟩
  | resolve id data =>
    simp only [step, settle]
    split
    · left; exact ⟨rfl, rfl⟩
    · rename_i f hf
      right; right
      have hmem := List.mem_of_find?_eq_some hf
      have hid := List.find?_some hf
      simp only [decide_eq_true_eq] at hid
      exact ⟨f, hmem, Or.inl ⟨data, by rw [hid]⟩⟩
  | reject id err =>
    simp only [step, settle]
    split
    · left; exact ⟨rfl, rfl⟩
    · rename_i f hf
      right; right
      have hmem := List.mem_of_find?_eq_some hf
      have hid := List.find?_some hf
      simp only [decide_eq_true_eq] at hid
      exact ⟨f, hmem, Or.inr ⟨err, by rw [hid]⟩⟩

/-- C8, as stated, fails: with `listing` the empty array the render produces
the result block (with no entry), although `listing` is not a non-empty list. -/
theorem render_empty_array_shows_block :
    render { query := "", searchQuery := "", listing := .arr [], loading := false }
      = .ok { inputValue := "", loadingIndicator := false, resultBlock := some [] } ∧
    blockShown (render { query := "", searchQuery := "", listing := .arr [], loading := false })
      = true ∧
    (Listing.arr []).isNonEmptyList = false :=
  ⟨rfl, rfl, rfl⟩

/-- C8, amended: for every value of `loading`, the render shows the loading
indicator exactly when `loading` is true; with `listing` the empty string it
shows no result block, and with `listing` an array, empty or not, it shows the
block with one entry per character in list order, with key `id`, image source
`image`, alt text `name` and text `name`. -/
theorem render_shows_block_iff_array (q sq : String) (b : Bool) (cs : List Character) :
    render { query := q, searchQuery := sq, listing := .str "", loading := b }
      = .ok { inputValue := q, loadingIndicator := b, resultBlock := none } ∧
    render { query := q, searchQuery := sq, listing := .arr cs, loading := b }
      = .ok { inputValue := q, loadingIndicator := b,
              resultBlock := some (cs.map fun c =>
                { key := c.id, imgSrc := c.image, imgAlt := c.name, text := c.name }) } ∧
    (blockShown (render { query := q, searchQuery := sq, listing := .arr cs, loading := b })
      = true) ∧
    (blockShown (render { query := q, searchQuery := sq, listing := .str "", loading := b })
      = false) := by
  refine ⟨?_, ?_, ?_, ?_⟩ <;>
    simp [render, renderListing, Listing.truthy, truthyStr, blockShown, renderCharacter]

/-! ## Claims on the reachable states -/

/-- C5, as stated, fails: after fetches for "a" and then "ab" have been
started and the older one has settled, `loading` is false although the most
recently started fetch is still in flight. -/
theorem loading_false_while_latest_fetch_pending :
    (run [.input "a", .wait 2000, .input "ab", .wait 2000,
          .resolve 0 { results := [] }]).app.loading = false ∧
    mostRecentPending (run [.input "a", .wait 2000, .input "ab", .wait 2000,
          .resolve 0 { results := [] }]) = true ∧
    (run [.input "a", .wait 2000, .input "ab", .wait 2000,
          .resolve 0 { results := [] }]).pending = [{ id := 1, term := "ab" }] := by
  decide

/-- C5, amended: in every state reachable from mount by keystrokes, passing
time and fetch settlements, `loading` is true exactly when the most recently
started fetch is still in flight and no fetch has settled since it was
started. -/
theorem loading_iff_latest_pending_and_none_settled_since (evs : List Event) :
    (run evs).app.loading = true ↔
      (mostRecentPending (run evs) = true ∧ settledSinceLastStart (run evs).fetchLog = false) := by
  have inv : LoadingInv (run evs) := loadingInv_runFrom evs loadingInv_mount
  obtain ⟨flag, inFlight⟩ := inv
  unfold mostRecentPending
  cases hlog : (run evs).fetchLog with
  | nil =>
    rw [hlog] at flag
    simp [lastStarted, flag]
  | cons entry rest =>
    cases entry with
    | started f =>
      have hmem : f ∈ (run evs).pending := inFlight f rest hlog
      have hload : (run evs).app.loading = true := flag.mpr ⟨f, rest, hlog⟩
      simp [lastStarted, settledSinceLastStart, hmem, hload]
    | settled id =>
      rw [hlog] at flag
      simp [settledSinceLastStart, flag]

/-- C6: with the delay 2000 of `App`, take a burst of query updates, each one
changing the query and each one after the first coming less than 2000 after
the previous one. During the burst the debounced term does not change, the
debounce timer does not fire and no fetch is started. Waiting `d` after the
last update: for `d` below 2000 still nothing has happened; otherwise the
timer has fired exactly once, 2000 after the last update and with the last
value, the debounced term is that value, and the effect has started one fetch,
for that value, when the value is non-empty and differs from the previous
debounced term, and no fetch otherwise. -/
theorem burst_settles_once_on_last_value (w : World) (v0 : String)
    (rest : List (Nat × String)) (d : Nat)
    (hgap : ∀ p ∈ rest, p.1 < debounceDelay)
    (hchg : List.Chain (fun a b => a ≠ b) w.app.query (v0 :: rest.map Prod.snd)) :
    (runFrom w (.input v0 :: burst rest)).app.searchQuery = w.app.searchQuery ∧
    (runFrom w (.input v0 :: burst rest)).debounceLog = w.debounceLog ∧
    (runFrom w (.input v0 :: burst rest)).fetchLog = w.fetchLog ∧
    (runFrom w (.input v0 :: burst rest)).now = lastUpdateTime w rest ∧
    (if d < debounceDelay then
      (step (runFrom w (.input v0 :: burst rest)) (.wait d)).app.searchQuery = w.app.searchQuery ∧
      (step (runFrom w (.input v0 :: burst rest)) (.wait d)).debounceLog = w.debounceLog ∧
      (step (runFrom w (.input v0 :: burst rest)) (.wait d)).fetchLog = w.fetchLog
     else
      (step (runFrom w (.input v0 :: burst rest)) (.wait d)).app.searchQuery = lastValue v0 rest ∧
      (step (runFrom w (.input v0 :: burst rest)) (.wait d)).debounceLog
        = (lastUpdateTime w rest + debounceDelay, lastValue v0 rest) :: w.debounceLog ∧
      (step (runFrom w (.input v0 :: burst rest)) (.wait d)).timer = none ∧
      (step (runFrom w (.input v0 :: burst rest)) (.wait d)).fetchLog
        = if lastValue v0 rest ≠ "" ∧ lastValue v0 rest ≠ w.app.searchQuery then
            .started { id := w.nextId, term := lastValue v0 rest } :: w.fetchLog
          else w.fetchLog) := by
  simp only [List.chain_cons] at hchg
  have hne : ¬ v0 = w.app.query := fun h => hchg.1 h.symm
  have hrun : runFrom w (.input v0 :: burst rest) =
      runFrom (step w (.input v0)) (burst rest) := rfl
  have hfirst : step w (.input v0) =
      { w with
        app := { w.app with query := v0 }
        timer := some (w.now + debounceDelay, v0) } := by
    simp only [step, onChange, setQuery, useDebounceRestart, if_neg hne]
  rw [hrun, hfirst, runFrom_burst rest _ v0 rfl rfl hgap hchg.2]
  refine ⟨rfl, rfl, rfl, rfl, ?_⟩
  have hT : lastUpdateTime
      { w with
        app := { w.app with query := v0 }
        timer := some (w.now + debounceDelay, v0) } rest = lastUpdateTime w rest := rfl
  rw [hT]
  by_cases hd : d < debounceDelay
  · rw [if_pos hd]
    have hdue : ¬ lastUpdateTime w rest + debounceDelay ≤ lastUpdateTime w rest + d := by omega
    simp [step, useDebounceDue, hdue]
  · rw [if_neg hd]
    have hdue : lastUpdateTime w rest + debounceDelay ≤ lastUpdateTime w rest + d := by omega
    simp only [step, useDebounceDue, if_pos hdue, fire]
    by_cases hsame : lastValue v0 rest = w.app.searchQuery
    · rw [if_pos hsame]
      refine ⟨rfl, rfl, rfl, ?_⟩
      rw [if_neg (fun h => h.2 hsame)]
    · rw [if_neg hsame]
      by_cases hempty : lastValue v0 rest = ""
      · rw [runEffect_empty _ hempty]
        refine ⟨rfl, rfl, rfl, ?_⟩
        rw [if_neg (fun h => h.1 hempty)]
      · rw [runEffect_nonempty _ hempty]
        refine ⟨rfl, rfl, rfl, ?_⟩
        rw [if_pos ⟨hempty, hsame⟩]

theorem burst_settles_once_on_last_value_witness :
    (∀ p ∈ [(999, "ab")], p.1 < debounceDelay) ∧
    List.Chain (fun a b => a ≠ b) mount.app.query ("a" :: [(999, "ab")].map Prod.snd) ∧
    (run [.input "a", .wait 999, .input "ab"]).fetchLog = [] ∧
    (run [.input "a", .wait 999, .input "ab", .wait 2000]).fetchLog
      = [.started { id := 0, term := "ab" }] ∧
    (run [.input "a", .wait 999, .input "ab", .wait 2000]).debounceLog = [(2999, "ab")] := by
  have hgap : ∀ p ∈ [(999, "ab")], p.1 < debounceDelay := by decide
  have hchg : List.Chain (fun a b => a ≠ b) mount.app.query
      ("a" :: [(999, "ab")].map Prod.snd) :=
    List.Chain.cons (by decide) (List.Chain.cons (by decide) List.Chain.nil)
  have h := burst_settles_once_on_last_value mount "a" [(999, "ab")] 2000 hgap hchg
  refine ⟨hgap, hchg, h.2.2.1, ?_, ?_⟩
  · exact h.2.2.2.2.2.2.2
  · exact h.2.2.2.2.2.1

/-- C9, on the code: no event sequence makes `listing` hold the results of a
fetch. For every sequence of keystrokes, waits and fetch settlements from
mount and every result list `rs`, `listing` is not `rs` at the end (and so at
no earlier point of the sequence either); and from every reachable state, the
successful settlement of any fetch with any `data` leaves `listing` the empty
string, not `data.results`. The scenario of the claim does arise up to that
point: with a fetch for "rick" in flight the debounced term changes to "morty"
and a second fetch is started, both stay in flight, and both settlements are
processed, none being cancelled or ignored. -/
theorem no_fetch_result_reaches_listing (evs : List Event) (id : Nat) (data : Data)
    (rs : List Character) :
    (run evs).app.listing ≠ .arr rs ∧
    (step (run evs) (.resolve id data)).app.listing = .str "" ∧
    (step (run evs) (.resolve id data)).app.listing ≠ .arr data.results ∧
    (run [.input "rick", .wait 2000, .input "morty", .wait 2000]).pending
      = [{ id := 1, term := "morty" }, { id := 0, term := "rick" }] ∧
    (run [.input "rick", .wait 2000, .input "morty", .wait 2000,
          .resolve 1 { results := [{ id := 2, name := "Morty Smith", image := "u2" }] },
          .resolve 0 { results := [rick] }]).fetchLog
      = [.settled 0, .settled 1, .started { id := 1, term := "morty" },
         .started { id := 0, term := "rick" }] := by
  have h : (run evs).app.listing = .str "" := runFrom_listing evs mount (by decide)
  have h1 : (step (run evs) (.resolve id data)).app.listing = .str "" :=
    step_listing (run evs) (.resolve id data) h
  refine ⟨?_, h1, ?_, by decide, by decide⟩
  · rw [h]; exact fun hne => Listing.noConfusion hne
  · rw [h1]; exact fun hne => Listing.noConfusion hne

/-- C10: in every state reachable from mount by keystrokes, passing time,
fetch successes and fetch failures, `listing` is the empty string, its initial
value, and the render shows no result block. -/
theorem listing_always_empty (evs : List Event) :
    (run evs).app.listing = .str "" ∧
    (run evs).app.listing = initialState.listing ∧
    render (run evs).app
      = .ok { inputValue := (run evs).app.query, loadingIndicator := (run evs).app.loading,
              resultBlock := none } ∧
    blockShown (render (run evs).app) = false := by
  have h : (run evs).app.listing = .str "" := runFrom_listing evs mount (by decide)
  refine ⟨h, h, ?_, ?_⟩ <;>
    simp [render, renderListing, h, Listing.truthy, truthyStr, blockShown]

end DebounceSearch
